import Mathlib

/-!
Verification of the room-based real-time chat server (src/server.js).

The server keeps two pieces of process-wide mutable state:
  * `roomHistory` — a Map from room key to a bounded array of messages
    (`pushRoomMessage`, src/server.js:52-60);
  * room membership — maintained by Socket.IO (`socket.join`/`socket.leave`
    and the adapter's room → socket-id sets).

We embed JavaScript values shallowly (`JSVal`) so that the truthiness tests
(`!room`, `!text`, `!username`) and the `typeof x !== "string"` checks of the
handlers can be stated exactly as the source performs them.  Each socket event
handler becomes a pure function from the server state (plus the per-socket
data `sid`/`user`) to a new state, an optional acknowledgment, and the list of
per-recipient emissions it produces.
-/

/-- A JavaScript value, as far as the handlers inspect one: the handlers only
branch on truthiness and on `typeof x === "string"`.  `vNum` carries an `Int`
(the server never does float arithmetic on inspected fields). -/
inductive JSVal where
  | vUndefined : JSVal
  | vNull : JSVal
  | vBool : Bool → JSVal
  | vNum : Int → JSVal
  | vStr : String → JSVal
deriving DecidableEq, Repr

/-- JavaScript truthiness: `undefined`, `null`, `false`, `0` and `""` are
falsy, everything else modelled here is truthy. -/
def JSVal.truthy : JSVal → Bool
  | .vUndefined => false
  | .vNull => false
  | .vBool b => b
  | .vNum n => n != 0
  | .vStr s => s != ""

/-- `typeof v === "string"`. -/
def JSVal.isString : JSVal → Bool
  | .vStr _ => true
  | _ => false

/-- A chat message as built by the `message` handler (src/server.js:114-121):
`{ id, room, text, author, meta, ts }`.  `room`, `text` and `meta` are taken
from the client payload unvalidated beyond truthiness, hence `JSVal`. -/
structure Message where
  id : String
  room : JSVal
  text : JSVal
  author : String
  meta : JSVal
  ts : String
deriving DecidableEq, Repr

/-- `const ROOM_HISTORY_LIMIT = 100` (src/server.js:52). -/
def ROOM_HISTORY_LIMIT : Nat := 100

/-- The `roomHistory` Map (src/server.js:53), as a total function with the
`Map.get(room) || []` default built in: a room that was never pushed to maps
to `[]`.  Keys are `JSVal` because the `message` handler uses the unvalidated
payload `room` as the Map key. -/
abbrev HistoryMap : Type := JSVal → List Message

/-- The empty `roomHistory` Map: every room's history is `[]`. -/
def emptyHistory : HistoryMap := fun _ => []

/-- `pushRoomMessage(room, msg)` (src/server.js:55-60): append `msg` to the
room's array, then `if (arr.length > ROOM_HISTORY_LIMIT) arr.shift()` — drop
the oldest (front) entry when the bound is exceeded. -/
def pushRoomMessage (hist : HistoryMap) (room : JSVal) (msg : Message) : HistoryMap :=
  fun r =>
    if r = room then
      let arr := hist room ++ [msg]
      if arr.length > ROOM_HISTORY_LIMIT then arr.tail else arr
    else hist r

/-- Room membership as maintained by the Socket.IO adapter: the set of
(socket id, room name) pairs.  Socket ids are modelled as `Nat`; room names in
the adapter are strings (only `socket.join` with a string ever inserts).
`socket.join` is idempotent, so the list is kept duplicate-free by the join
operation itself. -/
abbrev MemberMap : Type := List (Nat × String)

/-- Is socket `sid` in room `room`? -/
def inRoom (m : MemberMap) (sid : Nat) (room : String) : Bool :=
  (sid, room) ∈ m

/-- `socket.join(room)`: add the socket to the room's set; a no-op when the
socket is already a member (Set semantics). -/
def socketJoin (m : MemberMap) (sid : Nat) (room : String) : MemberMap :=
  if inRoom m sid room then m else (sid, room) :: m

/-- `socket.leave(room)`: remove the socket from the room's set; a no-op when
the socket is not a member. -/
def socketLeave (m : MemberMap) (sid : Nat) (room : String) : MemberMap :=
  m.filter (fun p => p ≠ (sid, room))

/-- `socket.leaveAll()` — performed by Socket.IO itself during disconnect
cleanup: the socket is removed from every room. -/
def leaveAll (m : MemberMap) (sid : Nat) : MemberMap :=
  m.filter (fun p => p.1 ≠ sid)

/-- The socket ids currently in a (string-named) room, in adapter order. -/
def roomMembers (m : MemberMap) (room : String) : List Nat :=
  (m.filter (fun p => p.2 = room)).map (fun p => p.1)

/-- The ids of the rooms socket `sid` is currently in (`socket.rooms`,
minus the self-room named after `socket.id`, which we do not model as a
membership entry). -/
def socketRooms (m : MemberMap) (sid : Nat) : List String :=
  (m.filter (fun p => p.1 = sid)).map (fun p => p.2)

/-- Looking a `JSVal` key up in the adapter's room map: only join-inserted
string keys can match, so a non-string key (as a `typing` or `message` request
may supply) names a room with no members. -/
def roomMembersJ (m : MemberMap) (v : JSVal) : List Nat :=
  match v with
  | .vStr r => roomMembers m r
  | _ => []

/-- `io.in(room).allSockets().size` — the member count of a room. -/
def memberCount (m : MemberMap) (v : JSVal) : Nat :=
  (roomMembersJ m v).length

/-- The whole mutable server state the handlers touch. -/
structure ServerState where
  membership : MemberMap
  roomHistory : HistoryMap

/-- An event payload delivered to a client. -/
inductive Payload where
  | connected : Nat → String → Payload
  | userJoined : String → JSVal → Payload
  | userLeft : String → JSVal → Payload
  | message : Message → Payload
  | typing : String → JSVal → Bool → Payload
deriving DecidableEq, Repr

/-- One delivery: `recipient` is the socket id the event is emitted to. -/
structure Emit where
  recipient : Nat
  payload : Payload
deriving DecidableEq, Repr

/-- An acknowledgment value passed to a request's callback `cb`. -/
inductive Ack where
  | joinOk : String → Nat → List Message → Ack
  | leaveOk : JSVal → Nat → Ack
  | msgOk : String → Ack
  | histOk : JSVal → List Message → Ack
  | err : String → Ack
deriving DecidableEq, Repr

/-- Result of running one handler: the new state, the acknowledgment sent to
the requesting client (if any), and the emissions to room peers, one entry
per recipient. -/
structure HRes where
  state : ServerState
  ack : Option Ack
  emits : List Emit

/-- JavaScript `String.prototype.trim()`, modelled on the character list:
drop leading and trailing whitespace. -/
def jsTrim (s : String) : String :=
  ⟨((s.data.dropWhile Char.isWhitespace).reverse.dropWhile Char.isWhitespace).reverse⟩

/-- The handshake middleware (src/server.js:63-70): reject when
`!username || typeof username !== "string" || username.trim() === ""`;
otherwise store `username.trim()` as the socket's username.  `none` models
`next(new Error("invalid username"))` — the connection is refused and no
session is created. -/
def handshakeCheck (username : JSVal) : Option String :=
  if !username.truthy || !username.isString then none
  else
    match username with
    | .vStr s => if jsTrim s = "" then none else some (jsTrim s)
    | _ => none

/-- A session as it exists after a successful handshake: the socket id and
the trimmed username stored in `socket.data.username` (src/server.js:68). -/
structure Session where
  sid : Nat
  username : String
deriving DecidableEq, Repr

/-- Connection admission: the handshake middleware followed by the
`connection` handler's greeting
`socket.emit("connected", { id, username })` (src/server.js:72-77).
`none`: connection refused, no session, nothing emitted. -/
def admitConn (sid : Nat) (username : JSVal) : Option (Session × Emit) :=
  match handshakeCheck username with
  | none => none
  | some u => some (⟨sid, u⟩, ⟨sid, .connected sid u⟩)

/-- The `join` handler (src/server.js:80-94).
`if (!room || typeof room !== "string")` rejects every non-string and the
empty string, so the guard is expressed by matching on the string case.
On success: `socket.join(room)`; `socket.to(room).emit("user_joined", ...)`
(the post-join members minus the sender — the same set as the pre-join
members minus the sender); then the member count and history are read after
the join and returned in the acknowledgment. -/
def joinHandler (st : ServerState) (sid : Nat) (user : String) (room : JSVal) : HRes :=
  match room with
  | .vStr r =>
    if r = "" then ⟨st, some (.err "room required"), []⟩
    else
      let m' := socketJoin st.membership sid r
      let st' : ServerState := { st with membership := m' }
      let emits := ((roomMembers m' r).filter (fun x => x ≠ sid)).map
        (fun x => ⟨x, .userJoined user (.vStr r)⟩)
      ⟨st', some (.joinOk r (memberCount m' (.vStr r)) (st.roomHistory (.vStr r))), emits⟩
  | _ => ⟨st, some (.err "room required"), []⟩

/-- The `leave` handler (src/server.js:97-106).  No validation at all:
`socket.leave(room)` (a no-op on the member map unless `room` is a string the
socket is in), then — unconditionally — `socket.to(room).emit("user_left",
...)` to the room's remaining members, then the post-leave member count. -/
def leaveHandler (st : ServerState) (sid : Nat) (user : String) (room : JSVal) : HRes :=
  let m' := match room with
    | .vStr r => socketLeave st.membership sid r
    | _ => st.membership
  let st' : ServerState := { st with membership := m' }
  let emits := ((roomMembersJ m' room).filter (fun x => x ≠ sid)).map
    (fun x => ⟨x, .userLeft user room⟩)
  ⟨st', some (.leaveOk room (memberCount m' room)), emits⟩

/-- The `message` payload `{ room, text, meta }` destructured at
src/server.js:112; a field absent from the client's object is `undefined`. -/
structure MsgPayload where
  room : JSVal
  text : JSVal
  meta : JSVal
deriving DecidableEq, Repr

/-- The `message` handler (src/server.js:109-129).  Guard: `if (!room ||
!text)` — truthiness only, no type check.  On success it builds the message
(`meta: meta || null`), calls `pushRoomMessage`, and broadcasts via
`io.in(room).emit("message", msg)` to every member of the room — the sender
included only if the sender is itself a member.  `newId` and `ts` stand for
the `Date.now`/`Math.random` id and the ISO timestamp, which are
nondeterministic inputs of the handler. -/
def messageHandler (st : ServerState) (sid : Nat) (user : String)
    (p : MsgPayload) (newId : String) (ts : String) : HRes :=
  if !p.room.truthy || !p.text.truthy then
    ⟨st, some (.err "room & text required"), []⟩
  else
    let msg : Message :=
      { id := newId, room := p.room, text := p.text, author := user,
        meta := if p.meta.truthy then p.meta else .vNull, ts := ts }
    let st' : ServerState := { st with roomHistory := pushRoomMessage st.roomHistory p.room msg }
    let emits := (roomMembersJ st'.membership p.room).map (fun x => ⟨x, .message msg⟩)
    ⟨st', some (.msgOk newId), emits⟩

/-- The `typing` handler (src/server.js:132-135): `if (!room) return;` — a
silent no-op, no acknowledgment ever (the event has no callback), no state
change; otherwise `socket.to(room).emit("typing", { user, room, isTyping:
!!isTyping })` to the room's members except the sender, with `isTyping`
coerced to a boolean by `!!`. -/
def typingHandler (st : ServerState) (sid : Nat) (user : String)
    (room : JSVal) (isTyping : JSVal) : HRes :=
  if !room.truthy then ⟨st, none, []⟩
  else
    let emits := ((roomMembersJ st.membership room).filter (fun x => x ≠ sid)).map
      (fun x => ⟨x, .typing user room isTyping.truthy⟩)
    ⟨st, none, emits⟩

/-- The `history` handler (src/server.js:138-141):
`roomHistory.get(room) || []`, returned in the acknowledgment.  No state
change, no emission to peers. -/
def historyHandler (st : ServerState) (room : JSVal) : HRes :=
  ⟨st, some (.histOk room (st.roomHistory room)), []⟩

/-- The body of the `disconnect` handler (src/server.js:147-150): for each
room in `roomsSeen` (the value of `socket.rooms` at the time the handler
runs), skip the self-room and emit `user_left` to the room's members other
than the sender.  `selfRoom` is the room named after `socket.id`. -/
def disconnectBody (m : MemberMap) (sid : Nat) (user : String)
    (selfRoom : String) (roomsSeen : List String) : List Emit :=
  roomsSeen.foldl
    (fun acc room =>
      if room = selfRoom then acc
      else acc ++ ((roomMembers m room).filter (fun x => x ≠ sid)).map
        (fun x => ⟨x, .userLeft user (.vStr room)⟩))
    []

/-- Disconnect processing as Socket.IO performs it: the server fires
"disconnecting" (this program registers no handler for it), then removes the
socket from all of its rooms (`Socket._cleanup` calls `leaveAll`), and only
then fires the "disconnect" event.  Inside the "disconnect" handler
`socket.rooms` is therefore already empty — the well-documented reason
Socket.IO offers the earlier "disconnecting" event for room iteration.
The handler at src/server.js:144-151 iterates `socket.rooms` at that point. -/
def processDisconnect (st : ServerState) (sid : Nat) (user : String) :
    ServerState × List Emit :=
  let m' := leaveAll st.membership sid
  let roomsSeen := socketRooms m' sid
  ({ st with membership := m' }, disconnectBody m' sid user "" roomsSeen)

/-- A whole sequence of `pushRoomMessage` calls, in order. -/
def applyPushes (hist : HistoryMap) (ps : List (JSVal × Message)) : HistoryMap :=
  ps.foldl (fun h p => pushRoomMessage h p.1 p.2) hist

/-- The action of `pushRoomMessage` on the single array it touches. -/
def pushArr (arr : List Message) (msg : Message) : List Message :=
  let a := arr ++ [msg]
  if a.length > ROOM_HISTORY_LIMIT then a.tail else a

theorem pushRoomMessage_apply_self (hist : HistoryMap) (room : JSVal) (msg : Message) :
    pushRoomMessage hist room msg room = pushArr (hist room) msg := by
  simp [pushRoomMessage, pushArr]

theorem pushRoomMessage_apply_other (hist : HistoryMap) (room : JSVal) (msg : Message)
    (r : JSVal) (h : r ≠ room) :
    pushRoomMessage hist room msg r = hist r := by
  simp [pushRoomMessage, h]

theorem pushArr_length_le (arr : List Message) (msg : Message)
    (h : arr.length ≤ ROOM_HISTORY_LIMIT) :
    (pushArr arr msg).length ≤ ROOM_HISTORY_LIMIT := by
  simp only [pushArr, List.length_append, List.length_singleton]
  split
  · simp only [List.length_tail, List.length_append, List.length_singleton]
    omega
  · next hgt => simp only [List.length_append, List.length_singleton]; omega

theorem pushRoomMessage_length_le (hist : HistoryMap) (room : JSVal) (msg : Message)
    (h : ∀ r, (hist r).length ≤ ROOM_HISTORY_LIMIT) (r : JSVal) :
    (pushRoomMessage hist room msg r).length ≤ ROOM_HISTORY_LIMIT := by
  by_cases hr : r = room
  · subst hr
    rw [pushRoomMessage_apply_self]
    exact pushArr_length_le _ _ (h r)
  · rw [pushRoomMessage_apply_other _ _ _ _ hr]
    exact h r

theorem applyPushes_length_le (ps : List (JSVal × Message)) (hist : HistoryMap)
    (h : ∀ r, (hist r).length ≤ ROOM_HISTORY_LIMIT) (r : JSVal) :
    ((applyPushes hist ps) r).length ≤ ROOM_HISTORY_LIMIT := by
  induction ps generalizing hist with
  | nil => exact h r
  | cons p ps ih =>
      simp only [applyPushes, List.foldl_cons]
      exact ih _ (fun r' => pushRoomMessage_length_le hist p.1 p.2 h r')

theorem foldl_pushRoomMessage_apply (ms : List Message) (hist : HistoryMap) (room : JSVal) :
    (ms.foldl (fun h m => pushRoomMessage h room m) hist) room
      = ms.foldl pushArr (hist room) := by
  induction ms generalizing hist with
  | nil => rfl
  | cons m ms ih =>
      simp only [List.foldl_cons]
      rw [ih, pushRoomMessage_apply_self]

/-- Folding `pushArr` keeps exactly the last `ROOM_HISTORY_LIMIT` entries of
the concatenated stream, in order. -/
theorem foldl_pushArr_eq_drop (ms : List Message) (arr : List Message)
    (h : arr.length ≤ ROOM_HISTORY_LIMIT) :
    ms.foldl pushArr arr = (arr ++ ms).drop ((arr ++ ms).length - ROOM_HISTORY_LIMIT) := by
  induction ms generalizing arr with
  | nil =>
      simp only [List.foldl_nil, List.append_nil]
      rw [Nat.sub_eq_zero_of_le h, List.drop_zero]
  | cons m ms ih =>
      simp only [List.foldl_cons]
      by_cases hlen : arr.length + 1 ≤ ROOM_HISTORY_LIMIT
      · have hpush : pushArr arr m = arr ++ [m] := by
          simp only [pushArr, List.length_append, List.length_singleton]
          rw [if_neg (by omega)]
        rw [hpush, ih (arr ++ [m]) (by simpa using hlen)]
        simp [List.append_assoc]
      · have harr : arr.length = ROOM_HISTORY_LIMIT := by omega
        obtain ⟨a, t, rfl⟩ : ∃ a t, arr = a :: t := by
          cases arr with
          | nil => simp [ROOM_HISTORY_LIMIT] at harr
          | cons a t => exact ⟨a, t, rfl⟩
        have ht : t.length + 1 = ROOM_HISTORY_LIMIT := by
          simpa using harr
        have hpush : pushArr (a :: t) m = t ++ [m] := by
          simp only [pushArr, List.length_append, List.length_cons, List.length_singleton]
          rw [if_pos (by omega)]
          simp
        rw [hpush, ih (t ++ [m]) (by simp; omega)]
        have h1 : (t ++ [m] ++ ms).length - ROOM_HISTORY_LIMIT = ms.length := by
          simp only [List.length_append, List.length_singleton]
          omega
        have h2 : ((a :: t) ++ m :: ms).length - ROOM_HISTORY_LIMIT = ms.length + 1 := by
          simp only [List.length_append, List.length_cons]
          omega
        rw [h1, h2]
        simp [List.append_assoc]

theorem inRoom_socketJoin (m : MemberMap) (sid : Nat) (room : String) :
    inRoom (socketJoin m sid room) sid room = true := by
  simp only [socketJoin]
  split
  · assumption
  · simp [inRoom]

theorem mem_roomMembers_of_inRoom (m : MemberMap) (sid : Nat) (room : String)
    (h : inRoom m sid room = true) : sid ∈ roomMembers m room := by
  simp only [inRoom, decide_eq_true_eq] at h
  simp only [roomMembers, List.mem_map, List.mem_filter]
  exact ⟨(sid, room), ⟨h, by simp⟩, rfl⟩

theorem socketLeave_idem (m : MemberMap) (sid : Nat) (room : String) :
    socketLeave (socketLeave m sid room) sid room = socketLeave m sid room := by
  simp only [socketLeave, List.filter_filter]
  congr 1
  funext p
  simp [Bool.and_self]

/-- Appending one element commutes with `tail` on a nonempty list. -/
theorem tail_append_singleton {α : Type} (l : List α) (a : α) (h : l ≠ []) :
    (l ++ [a]).tail = l.tail ++ [a] := by
  cases l with
  | nil => exact absurd rfl h
  | cons x xs => simp

/-- Claim C1: for every room and every sequence of `pushRoomMessage` calls
starting from the fresh (empty) `roomHistory` Map, the room's stored array
holds at most `ROOM_HISTORY_LIMIT = 100` entries after each call: any point
"after a call" is the state `applyPushes emptyHistory ps` for the prefix `ps`
of calls made so far, and the bound holds for every `ps`. -/
theorem history_length_bounded (ps : List (JSVal × Message)) (r : JSVal) :
    ((applyPushes emptyHistory ps) r).length ≤ ROOM_HISTORY_LIMIT :=
  applyPushes_length_le ps emptyHistory (fun _ => by simp [emptyHistory]) r

/-- Claim C2 (code bug, evaluated at the failing input): sessions 1
("alice") and 2 ("bob") are both in room "r1" and session 1 disconnects.
The cleanup removes session 1 from the room (done by the transport library
itself), but the "disconnect" handler emits no "user_left" at all: the
library empties `socket.rooms` before the "disconnect" event fires, so the
loop at src/server.js:147-150 iterates an empty set and the remaining peer
observes zero "user_left" notifications instead of exactly one. -/
theorem disconnect_cleanup_emits_nothing :
    ((processDisconnect ⟨[(1, "r1"), (2, "r1")], emptyHistory⟩ 1 "alice").1.membership
        = [(2, "r1")])
    ∧ (processDisconnect ⟨[(1, "r1"), (2, "r1")], emptyHistory⟩ 1 "alice").2 = [] := by
  constructor <;> decide

/-- Claim C3 (counterexample): session 1 ("alice") is not a member of room
"r1", whose only member is session 2; session 1 sends
`message(room="r1", text="hi")`.  The acknowledgment is `{ok:true, id}`, yet
no emission reaches the sender: `io.in(room).emit` delivers to the room's
members only and the sender never joined, refuting "the message event is
delivered to the sender itself". -/
theorem message_sender_not_delivered_cex :
    ((messageHandler ⟨[(2, "r1")], emptyHistory⟩ 1 "alice"
        ⟨.vStr "r1", .vStr "hi", .vUndefined⟩ "m0" "t0").ack = some (.msgOk "m0"))
    ∧ (∀ e ∈ (messageHandler ⟨[(2, "r1")], emptyHistory⟩ 1 "alice"
        ⟨.vStr "r1", .vStr "hi", .vUndefined⟩ "m0" "t0").emits, e.recipient ≠ 1) := by
  constructor <;> decide

/-- The last history entry after a push is the pushed message. -/
theorem pushArr_eq_append (arr : List Message) (msg : Message) :
    ∃ pre, pushArr arr msg = pre ++ [msg] := by
  simp only [pushArr]
  split
  · next hgt =>
      refine ⟨arr.tail, tail_append_singleton arr msg ?_⟩
      intro hnil
      subst hnil
      simp [ROOM_HISTORY_LIMIT] at hgt
  · exact ⟨arr, rfl⟩

/-- Claim C3 (amended): for a message request with a non-empty string room
and text from a connected session, the `{ok:true, id}` acknowledgment comes
with a history entry for that room whose author is the sender's username and
whose room and text equal the request's values (it is the newest entry); no
other room key's history changes; and the message event is delivered to
exactly the current members of that room — hence to the sender whenever the
sender is itself a member, which the source does not require — and to no
member of any other room. -/
theorem message_roundtrip (st : ServerState) (sid : Nat) (user : String)
    (room text : String) (meta : JSVal) (newId ts : String)
    (hr : room ≠ "") (ht : text ≠ "") :
    (messageHandler st sid user ⟨.vStr room, .vStr text, meta⟩ newId ts).ack
      = some (.msgOk newId)
    ∧ (∃ pre, (messageHandler st sid user ⟨.vStr room, .vStr text, meta⟩ newId ts).state.roomHistory
          (.vStr room)
        = pre ++ [⟨newId, .vStr room, .vStr text, user,
            if meta.truthy then meta else .vNull, ts⟩])
    ∧ (∀ v, v ≠ .vStr room →
        (messageHandler st sid user ⟨.vStr room, .vStr text, meta⟩ newId ts).state.roomHistory v
          = st.roomHistory v)
    ∧ (messageHandler st sid user ⟨.vStr room, .vStr text, meta⟩ newId ts).emits
        = (roomMembers st.membership room).map
            (fun x => ⟨x, .message ⟨newId, .vStr room, .vStr text, user,
              if meta.truthy then meta else .vNull, ts⟩⟩)
    ∧ (inRoom st.membership sid room = true →
        (⟨sid, .message ⟨newId, .vStr room, .vStr text, user,
            if meta.truthy then meta else .vNull, ts⟩⟩ : Emit)
          ∈ (messageHandler st sid user ⟨.vStr room, .vStr text, meta⟩ newId ts).emits) := by
  have hcond : (!(JSVal.vStr room).truthy || !(JSVal.vStr text).truthy) = false := by
    simp [JSVal.truthy, hr, ht]
  have hack : (messageHandler st sid user ⟨.vStr room, .vStr text, meta⟩ newId ts).ack
      = some (.msgOk newId) := by
    simp [messageHandler, hcond]
  have hstate : (messageHandler st sid user ⟨.vStr room, .vStr text, meta⟩ newId ts).state.roomHistory
      = pushRoomMessage st.roomHistory (.vStr room)
          ⟨newId, .vStr room, .vStr text, user, if meta.truthy then meta else .vNull, ts⟩ := by
    simp [messageHandler, hcond]
  have hemits : (messageHandler st sid user ⟨.vStr room, .vStr text, meta⟩ newId ts).emits
      = (roomMembers st.membership room).map
          (fun x => ⟨x, .message ⟨newId, .vStr room, .vStr text, user,
            if meta.truthy then meta else .vNull, ts⟩⟩) := by
    simp [messageHandler, hcond, roomMembersJ]
  refine ⟨hack, ?_, ?_, hemits, ?_⟩
  · rw [hstate, pushRoomMessage_apply_self]
    exact pushArr_eq_append _ _
  · intro v hv
    rw [hstate]
    exact pushRoomMessage_apply_other _ _ _ _ hv
  · intro hmem
    rw [hemits]
    exact List.mem_map_of_mem _ (mem_roomMembers_of_inRoom _ _ _ hmem)

/-- Claim C3 (amended) witness: alice (session 1) has joined "r1" alongside
session 2 and sends "hi"; the three hypotheses hold at this input. -/
theorem message_roundtrip_witness :
    "r1" ≠ "" ∧ "hi" ≠ ""
    ∧ ((messageHandler ⟨[(1, "r1"), (2, "r1")], emptyHistory⟩ 1 "alice"
          ⟨.vStr "r1", .vStr "hi", .vUndefined⟩ "m0" "t0").ack = some (.msgOk "m0")
      ∧ (∃ pre, (messageHandler ⟨[(1, "r1"), (2, "r1")], emptyHistory⟩ 1 "alice"
            ⟨.vStr "r1", .vStr "hi", .vUndefined⟩ "m0" "t0").state.roomHistory (.vStr "r1")
          = pre ++ [⟨"m0", .vStr "r1", .vStr "hi", "alice",
              if JSVal.vUndefined.truthy then JSVal.vUndefined else .vNull, "t0"⟩])
      ∧ (∀ v, v ≠ .vStr "r1" →
          (messageHandler ⟨[(1, "r1"), (2, "r1")], emptyHistory⟩ 1 "alice"
            ⟨.vStr "r1", .vStr "hi", .vUndefined⟩ "m0" "t0").state.roomHistory v
            = emptyHistory v)
      ∧ (messageHandler ⟨[(1, "r1"), (2, "r1")], emptyHistory⟩ 1 "alice"
            ⟨.vStr "r1", .vStr "hi", .vUndefined⟩ "m0" "t0").emits
          = (roomMembers [(1, "r1"), (2, "r1")] "r1").map
              (fun x => ⟨x, .message ⟨"m0", .vStr "r1", .vStr "hi", "alice",
                if JSVal.vUndefined.truthy then JSVal.vUndefined else .vNull, "t0"⟩⟩)
      ∧ (inRoom [(1, "r1"), (2, "r1")] 1 "r1" = true →
          (⟨1, .message ⟨"m0", .vStr "r1", .vStr "hi", "alice",
              if JSVal.vUndefined.truthy then JSVal.vUndefined else .vNull, "t0"⟩⟩ : Emit)
            ∈ (messageHandler ⟨[(1, "r1"), (2, "r1")], emptyHistory⟩ 1 "alice"
                ⟨.vStr "r1", .vStr "hi", .vUndefined⟩ "m0" "t0").emits)) :=
  ⟨by decide, by decide,
    message_roundtrip ⟨[(1, "r1"), (2, "r1")], emptyHistory⟩ 1 "alice" "r1" "hi"
      .vUndefined "m0" "t0" (by decide) (by decide)⟩

/-- Claim C5: appending 101 messages to a fresh room leaves exactly the last
100 in the room's history — the single oldest evicted, original order kept —
and the `history` handler returns that sequence in its acknowledgment. -/
theorem capacity_eviction (ms : List Message) (r : JSVal) (mm : MemberMap)
    (h : ms.length = 101) :
    (ms.foldl (fun hst m => pushRoomMessage hst r m) emptyHistory) r = ms.drop 1
    ∧ historyHandler ⟨mm, ms.foldl (fun hst m => pushRoomMessage hst r m) emptyHistory⟩ r
      = ⟨⟨mm, ms.foldl (fun hst m => pushRoomMessage hst r m) emptyHistory⟩,
         some (.histOk r (ms.drop 1)), []⟩ := by
  have key : (ms.foldl (fun hst m => pushRoomMessage hst r m) emptyHistory) r
      = ms.drop 1 := by
    rw [foldl_pushRoomMessage_apply]
    have h0 : emptyHistory r = [] := rfl
    rw [h0, foldl_pushArr_eq_drop ms [] (by simp [ROOM_HISTORY_LIMIT])]
    simp [h, ROOM_HISTORY_LIMIT]
  exact ⟨key, by simp [historyHandler, key]⟩

/-- A concrete message stream for the eviction scenario. -/
def msgNo (i : Nat) : Message :=
  ⟨toString i, .vStr "r1", .vStr "hi", "alice", .vUndefined, "t"⟩

/-- 101 distinct concrete messages. -/
def ms101 : List Message := (List.range 101).map msgNo

/-- Claim C5 witness: the eviction scenario evaluated on 101 concrete
messages sent to room "r1". -/
theorem capacity_eviction_witness :
    ms101.length = 101
    ∧ ((ms101.foldl (fun hst m => pushRoomMessage hst (.vStr "r1") m) emptyHistory) (.vStr "r1")
        = ms101.drop 1
      ∧ historyHandler ⟨[], ms101.foldl (fun hst m => pushRoomMessage hst (.vStr "r1") m)
            emptyHistory⟩ (.vStr "r1")
        = ⟨⟨[], ms101.foldl (fun hst m => pushRoomMessage hst (.vStr "r1") m) emptyHistory⟩,
           some (.histOk (.vStr "r1") (ms101.drop 1)), []⟩) :=
  ⟨by simp [ms101], capacity_eviction ms101 (.vStr "r1") [] (by simp [ms101])⟩

theorem handshakeCheck_vStr (s : String) :
    handshakeCheck (.vStr s) = if jsTrim s = "" then none else some (jsTrim s) := by
  by_cases hs : s = ""
  · subst hs
    have h0 : jsTrim "" = "" := rfl
    simp [handshakeCheck, JSVal.truthy, JSVal.isString, h0]
  · simp [handshakeCheck, JSVal.truthy, JSVal.isString, hs]

theorem handshakeCheck_not_vStr (v : JSVal) (h : v.isString = false) :
    handshakeCheck v = none := by
  cases v <;> simp_all [handshakeCheck, JSVal.isString, JSVal.truthy]

/-- Claim C4: a connection attempt is refused — no session created — exactly
when the claimed username is not a string (missing/`undefined` included) or
trims to the empty string; a successful attempt yields a session storing the
trimmed username and a "connected" notification to that client carrying its
socket id and the accepted (trimmed) username. -/
theorem admission_validation (sid : Nat) (v : JSVal) :
    (admitConn sid v = none ↔ ∀ s, v = .vStr s → jsTrim s = "")
    ∧ (∀ s, v = .vStr s → jsTrim s ≠ "" →
        admitConn sid v = some (⟨sid, jsTrim s⟩, ⟨sid, .connected sid (jsTrim s)⟩)) := by
  have key : ∀ s, admitConn sid (.vStr s)
      = if jsTrim s = "" then none
        else some (⟨sid, jsTrim s⟩, ⟨sid, .connected sid (jsTrim s)⟩) := by
    intro s
    simp only [admitConn, handshakeCheck_vStr]
    by_cases ht : jsTrim s = "" <;> simp [ht]
  constructor
  · cases v with
    | vStr s =>
        rw [key s]
        by_cases ht : jsTrim s = "" <;> simp [ht]
    | vUndefined => simp [admitConn, handshakeCheck_not_vStr .vUndefined rfl]
    | vNull => simp [admitConn, handshakeCheck_not_vStr .vNull rfl]
    | vBool b => simp [admitConn, handshakeCheck_not_vStr (.vBool b) rfl]
    | vNum n => simp [admitConn, handshakeCheck_not_vStr (.vNum n) rfl]
  · intro s hv ht
    subst hv
    rw [key s, if_neg ht]

/-- Claim C4 witness: `" alice "` is admitted as `"alice"`; a non-string and
a whitespace-only name are both refused. -/
theorem admission_validation_witness :
    jsTrim " alice " ≠ ""
    ∧ admitConn 7 (.vStr " alice ")
        = some (⟨7, jsTrim " alice "⟩, ⟨7, .connected 7 (jsTrim " alice ")⟩)
    ∧ admitConn 7 (.vNum 3) = none
    ∧ admitConn 7 (.vStr "   ") = none :=
  ⟨by decide,
   (admission_validation 7 (.vStr " alice ")).2 " alice " rfl (by decide),
   (admission_validation 7 (.vNum 3)).1.mpr (fun s h => by cases h),
   (admission_validation 7 (.vStr "   ")).1.mpr
     (fun s h => by cases h; decide)⟩

/-- Claim C6 (counterexample): sessions 1 ("alice") and 2 in room "r1";
session 1 calls `leave("r1")` twice.  The first call emits one "user_left"
to the remaining member 2 — and so does the second call, because
`socket.to(room).emit("user_left", ...)` runs unconditionally
(src/server.js:100): member 2 receives a duplicate notification, refuting
"no duplicate user_left is emitted".  The second ack still reports
`ok:true` with the unchanged member count 1. -/
theorem leave_twice_duplicate_cex :
    (leaveHandler ⟨[(1, "r1"), (2, "r1")], emptyHistory⟩ 1 "alice" (.vStr "r1")).emits
      = [⟨2, .userLeft "alice" (.vStr "r1")⟩]
    ∧ (leaveHandler (leaveHandler ⟨[(1, "r1"), (2, "r1")], emptyHistory⟩ 1 "alice"
          (.vStr "r1")).state 1 "alice" (.vStr "r1")).emits
        = [⟨2, .userLeft "alice" (.vStr "r1")⟩]
    ∧ (leaveHandler (leaveHandler ⟨[(1, "r1"), (2, "r1")], emptyHistory⟩ 1 "alice"
          (.vStr "r1")).state 1 "alice" (.vStr "r1")).ack
        = some (.leaveOk (.vStr "r1") 1) := by
  refine ⟨by decide, by decide, by decide⟩

/-- Claim C6 (amended): a second `leave(R)` in a row returns exactly the same
result as the first — same `ok:true` acknowledgment with unchanged member
count, same (unchanged) state — but it also re-emits the very same
"user_left" notifications to the room's remaining members: the emission is
unconditional, so peers do observe a duplicate. -/
theorem leave_handler_idempotent (st : ServerState) (sid : Nat) (user : String)
    (room : JSVal) :
    leaveHandler (leaveHandler st sid user room).state sid user room
      = leaveHandler st sid user room := by
  cases room with
  | vStr r =>
      show leaveHandler { st with membership := socketLeave st.membership sid r }
          sid user (.vStr r) = _
      simp only [leaveHandler, socketLeave_idem]
  | vUndefined => rfl
  | vNull => rfl
  | vBool b => rfl
  | vNum n => rfl

/-- Claim C7: after a successful `join(S, R)`, session S is a member of room
R, and the member count in the acknowledgment is computed from the post-join
membership — it already counts S, so it is at least 1. -/
theorem join_count_includes_self (st : ServerState) (sid : Nat) (user : String)
    (r : String) (hr : r ≠ "") :
    inRoom (joinHandler st sid user (.vStr r)).state.membership sid r = true
    ∧ (joinHandler st sid user (.vStr r)).ack
        = some (.joinOk r
            (memberCount (joinHandler st sid user (.vStr r)).state.membership (.vStr r))
            (st.roomHistory (.vStr r)))
    ∧ 1 ≤ memberCount (joinHandler st sid user (.vStr r)).state.membership (.vStr r) := by
  have hres : (joinHandler st sid user (.vStr r)).state.membership
      = socketJoin st.membership sid r := by
    simp [joinHandler, hr]
  have hack : (joinHandler st sid user (.vStr r)).ack
      = some (.joinOk r (memberCount (socketJoin st.membership sid r) (.vStr r))
          (st.roomHistory (.vStr r))) := by
    simp [joinHandler, hr]
  refine ⟨?_, ?_, ?_⟩
  · rw [hres]
    exact inRoom_socketJoin _ _ _
  · rw [hack, hres]
  · rw [hres]
    have hmem : sid ∈ roomMembers (socketJoin st.membership sid r) r :=
      mem_roomMembers_of_inRoom _ _ _ (inRoom_socketJoin _ _ _)
    exact List.length_pos_of_mem hmem

/-- Claim C7 witness: alice joins "lobby" from the empty server state. -/
theorem join_count_includes_self_witness :
    "lobby" ≠ ""
    ∧ (inRoom (joinHandler ⟨[], emptyHistory⟩ 1 "alice" (.vStr "lobby")).state.membership
          1 "lobby" = true
      ∧ (joinHandler ⟨[], emptyHistory⟩ 1 "alice" (.vStr "lobby")).ack
          = some (.joinOk "lobby"
              (memberCount (joinHandler ⟨[], emptyHistory⟩ 1 "alice"
                (.vStr "lobby")).state.membership (.vStr "lobby"))
              (emptyHistory (.vStr "lobby")))
      ∧ 1 ≤ memberCount (joinHandler ⟨[], emptyHistory⟩ 1 "alice"
            (.vStr "lobby")).state.membership (.vStr "lobby")) :=
  ⟨by decide, join_count_includes_self ⟨[], emptyHistory⟩ 1 "alice" "lobby" (by decide)⟩

/-- Claim C8: a `join` whose room argument is the empty string or not a
string at all is acknowledged `{ok:false, error:"room required"}`, the state
is completely unchanged, and nothing is emitted to anyone. -/
theorem join_invalid_room_rejected (st : ServerState) (sid : Nat) (user : String)
    (v : JSVal) (h : ∀ s, v = .vStr s → s = "") :
    joinHandler st sid user v = ⟨st, some (.err "room required"), []⟩ := by
  cases v with
  | vStr s =>
      rw [h s rfl]
      rfl
  | vUndefined => rfl
  | vNull => rfl
  | vBool b => rfl
  | vNum n => rfl

/-- Claim C8 witness: joining the empty-string room from a concrete state. -/
theorem join_invalid_room_rejected_witness :
    joinHandler ⟨[(2, "r1")], emptyHistory⟩ 1 "alice" (.vStr "")
      = ⟨⟨[(2, "r1")], emptyHistory⟩, some (.err "room required"), []⟩ :=
  join_invalid_room_rejected ⟨[(2, "r1")], emptyHistory⟩ 1 "alice" (.vStr "")
    (fun s h => (JSVal.vStr.inj h).symm)

/-- Claim C9 (counterexample): the `message` guard is `if (!room || !text)` —
truthiness only, never a type check.  A payload whose room is the number `1`
(truthy, not a string) with text "hi" is accepted: the ack is `{ok:true, id}`
and a history entry is appended under the Map key `1`, refuting "room ... of
the wrong type (not a string) ... acknowledges {ok:false}, appends
nothing". -/
theorem message_wrong_type_accepted_cex :
    (messageHandler ⟨[], emptyHistory⟩ 1 "alice" ⟨.vNum 1, .vStr "hi", .vUndefined⟩
        "m0" "t0").ack = some (.msgOk "m0")
    ∧ (messageHandler ⟨[], emptyHistory⟩ 1 "alice" ⟨.vNum 1, .vStr "hi", .vUndefined⟩
        "m0" "t0").state.roomHistory (.vNum 1)
      = [⟨"m0", .vNum 1, .vStr "hi", "alice", .vNull, "t0"⟩] := by
  refine ⟨by decide, by decide⟩

/-- Claim C9 (amended): the `message` handler rejects exactly the payloads
whose room or text is falsy — missing (`undefined`), `null`, `false`, `0` or
the empty string: those get a local `{ok:false, error}` acknowledgment, no
history is appended anywhere, and nothing is emitted.  Truthy values of the
wrong type (for example a numeric room) are not rejected. -/
theorem message_falsy_rejected (st : ServerState) (sid : Nat) (user : String)
    (p : MsgPayload) (newId ts : String)
    (h : p.room.truthy = false ∨ p.text.truthy = false) :
    messageHandler st sid user p newId ts
      = ⟨st, some (.err "room & text required"), []⟩ := by
  have hcond : (!p.room.truthy || !p.text.truthy) = true := by
    rcases h with h | h <;> simp [h]
  simp [messageHandler, hcond]

/-- Claim C9 (amended) witness: an empty-string room with non-empty text is
rejected without any state change or emission. -/
theorem message_falsy_rejected_witness :
    (JSVal.vStr "").truthy = false
    ∧ messageHandler ⟨[(2, "r1")], emptyHistory⟩ 1 "alice"
        ⟨.vStr "", .vStr "hi", .vUndefined⟩ "m0" "t0"
      = ⟨⟨[(2, "r1")], emptyHistory⟩, some (.err "room & text required"), []⟩ :=
  ⟨by decide,
   message_falsy_rejected ⟨[(2, "r1")], emptyHistory⟩ 1 "alice"
     ⟨.vStr "", .vStr "hi", .vUndefined⟩ "m0" "t0" (Or.inl (by decide))⟩

/-- Claim C10: a `typing` request with a falsy room (missing field included)
is a silent no-op — state unchanged, no acknowledgment (the handler never
acknowledges), nothing emitted; with a truthy room the forwarded payload's
isTyping field is the boolean coercion `!!isTyping`, and the event goes to
exactly the room's members other than the sender. -/
theorem typing_silent_noop_and_fanout (st : ServerState) (sid : Nat) (user : String)
    (room : JSVal) (isTyping : JSVal) :
    (room.truthy = false →
      typingHandler st sid user room isTyping = ⟨st, none, []⟩)
    ∧ (room.truthy = true →
        (typingHandler st sid user room isTyping).state = st
        ∧ (typingHandler st sid user room isTyping).ack = none
        ∧ ∀ e, e ∈ (typingHandler st sid user room isTyping).emits ↔
            (e.recipient ∈ roomMembersJ st.membership room ∧ e.recipient ≠ sid
              ∧ e.payload = .typing user room isTyping.truthy)) := by
  constructor
  · intro h
    simp [typingHandler, h]
  · intro h
    refine ⟨by simp [typingHandler, h], by simp [typingHandler, h], ?_⟩
    intro e
    obtain ⟨rec, pl⟩ := e
    simp only [typingHandler, h, Bool.not_true, Bool.false_eq_true, if_false,
      List.mem_map, List.mem_filter, Emit.mk.injEq]
    constructor
    · rintro ⟨x, ⟨hx, hxs⟩, hxe, hpe⟩
      subst hxe
      refine ⟨hx, by simpa using hxs, hpe.symm⟩
    · rintro ⟨hx, hxs, hpe⟩
      exact ⟨rec, ⟨hx, by simpa using hxs⟩, rfl, hpe.symm⟩

/-- Claim C10 witness: a `typing` with a `null` room is a silent no-op, and a
`typing` to "r1" (members 1 and 2, sender 1) reaches exactly member 2 with
the coerced boolean. -/
theorem typing_silent_noop_and_fanout_witness :
    (JSVal.vNull.truthy = false
      ∧ typingHandler ⟨[(1, "r1"), (2, "r1")], emptyHistory⟩ 1 "alice" .vNull (.vStr "x")
        = ⟨⟨[(1, "r1"), (2, "r1")], emptyHistory⟩, none, []⟩)
    ∧ ((JSVal.vStr "r1").truthy = true
      ∧ ((typingHandler ⟨[(1, "r1"), (2, "r1")], emptyHistory⟩ 1 "alice" (.vStr "r1")
            (.vStr "x")).state = ⟨[(1, "r1"), (2, "r1")], emptyHistory⟩
        ∧ (typingHandler ⟨[(1, "r1"), (2, "r1")], emptyHistory⟩ 1 "alice" (.vStr "r1")
            (.vStr "x")).ack = none
        ∧ ∀ e, e ∈ (typingHandler ⟨[(1, "r1"), (2, "r1")], emptyHistory⟩ 1 "alice"
              (.vStr "r1") (.vStr "x")).emits ↔
            (e.recipient ∈ roomMembersJ [(1, "r1"), (2, "r1")] (.vStr "r1")
              ∧ e.recipient ≠ 1
              ∧ e.payload = .typing "alice" (.vStr "r1") (JSVal.vStr "x").truthy))) :=
  ⟨⟨by decide,
    (typing_silent_noop_and_fanout ⟨[(1, "r1"), (2, "r1")], emptyHistory⟩ 1 "alice"
      .vNull (.vStr "x")).1 (by decide)⟩,
   ⟨by decide,
    (typing_silent_noop_and_fanout ⟨[(1, "r1"), (2, "r1")], emptyHistory⟩ 1 "alice"
      (.vStr "r1") (.vStr "x")).2 (by decide)⟩⟩
